import Mathlib

/-!
Verification development for the qatar-visa-guide ingestion pipeline.

The TypeScript/JavaScript sources are shallowly embedded as executable Lean
definitions.  External collaborators that are not part of this repository's
sources (the `@qatar-visa/shared` keyword helpers, the WHATWG `URL`
constructor, the Playwright fetcher, the robots.txt parser and the Prisma
client) are modelled as oracle parameters; every piece of control flow and
arithmetic that lives in the repository's own files is translated directly.
-/

namespace QatarVisaGuide

/-! ## Relevance classifier (packages/etl/src/classifier.ts) -/

/-- Result record returned by both classifier stages
(`ClassificationResult` in classifier.ts).  The reasons strings elide the
interpolated regex text of `URL matches exclusion pattern: ${pattern}`,
since pattern oracles have no string rendering here. -/
structure ClassificationResult where
  isRelevant : Bool
  confidence : ℚ
  reasons : List String

/-- Integer score of `PageClassifier.classifyUrl`: +50 when
`isVisaRelatedUrl` holds, −100 when any exclusion pattern matches (the
source `break`s after the first matching pattern, so the penalty is applied
at most once).  `visaRel` models `isVisaRelatedUrl` and `pats` models
`EXCLUDE_URL_PATTERNS`, both from `@qatar-visa/shared` which is not among
the repository sources. -/
def urlScore (visaRel : String → Bool) (pats : List (String → Bool)) (url : String) : ℤ :=
  let base : ℤ := if visaRel url then 50 else 0
  if pats.any (fun p => p url) then base - 100 else base

/-- Model of `PageClassifier.classifyUrl` (classifier.ts lines 20–44). -/
def classifyUrl (visaRel : String → Bool) (pats : List (String → Bool)) (url : String) :
    ClassificationResult :=
  let score := urlScore visaRel pats url
  { isRelevant := decide (0 < score)
    confidence := min (max ((score : ℚ) / 100) 0) 1
    reasons :=
      (if visaRel url then ["URL contains visa/immigration keywords"] else []) ++
      (if pats.any (fun p => p url) then ["URL matches exclusion pattern"] else []) }

/-- The content-stage features that classifier.ts reads off the fetched DOM
through cheerio (an external library): keyword hits in title, meta
description and headings via `hasVisaKeywords` (shared package), the number
of visa section indicator phrases found in the body text, the presence of
official government links, and the number of tourism keywords found. -/
structure ContentFeatures where
  titleKw : Bool
  metaKw : Bool
  headingKw : Bool
  indicatorCount : ℕ
  officialLinks : Bool
  tourismCount : ℕ

/-- Raw additive score of `PageClassifier.classifyContent` before
normalization (classifier.ts lines 49–121). -/
def contentScore (visaRel : String → Bool) (pats : List (String → Bool)) (url : String)
    (f : ContentFeatures) : ℚ :=
  (classifyUrl visaRel pats url).confidence * 30
    + (if f.titleKw then 20 else 0)
    + (if f.metaKw then 15 else 0)
    + (if f.headingKw then 20 else 0)
    + (if 3 ≤ f.indicatorCount then 30
       else if 0 < f.indicatorCount then (f.indicatorCount : ℚ) * 5 else 0)
    + (if f.officialLinks then 10 else 0)
    - (if 3 ≤ f.tourismCount then 20 else 0)

/-- The clamp `Math.min(Math.max(score, 0), 100)` (classifier.ts line 124). -/
def normalizedContentScore (visaRel : String → Bool) (pats : List (String → Bool))
    (url : String) (f : ContentFeatures) : ℚ :=
  min (max (contentScore visaRel pats url f) 0) 100

/-- Model of `PageClassifier.classifyContent` (classifier.ts lines 49–131). -/
def classifyContent (visaRel : String → Bool) (pats : List (String → Bool)) (url : String)
    (f : ContentFeatures) : ClassificationResult :=
  let ns := normalizedContentScore visaRel pats url f
  { isRelevant := decide (40 ≤ ns)
    confidence := ns / 100
    reasons := (classifyUrl visaRel pats url).reasons }

/-! ## Heuristic extraction (load-visa-data script, src/unnamed/part_000)

`extractAmount` and `extractDays` are JavaScript regex scans.  The regexes
are embedded as deterministic character-list scanners.  The regex engine's
leftmost-match backtracking is accounted for: wherever the engine could
backtrack (shorter `\d+` matches, fewer `(?:,\d{3})*` iterations, skipping
an optional group that was present), the abandoned alternative necessarily
leaves a digit, a comma, a dash or a dot where the unit token must start,
so only the greedy parse can ever succeed and the scanners below take it
directly. -/

/-- Numeric value of a digit run (`parseInt` / integer part of
`parseFloat` on a digits-only string). -/
def digitsVal (ds : List Char) : ℕ :=
  ds.foldl (fun acc c => acc * 10 + (c.toNat - 48)) 0

/-- Maximal run of decimal digits (`\d+` with greedy semantics). -/
def spanDigits (cs : List Char) : List Char × List Char :=
  cs.span (fun c => c.isDigit)

/-- The `\s*` step: drop leading whitespace. -/
def skipWs (cs : List Char) : List Char :=
  cs.dropWhile (fun c => c.isWhitespace)

/-- Lower-casing used to model the `/i` regex flag and
`String.prototype.toLowerCase`. -/
def lcList (cs : List Char) : List Char :=
  cs.map Char.toLower

/-- JavaScript `String.prototype.includes` on character lists. -/
def containsSub (hay needle : List Char) : Bool :=
  if needle.isPrefixOf hay then true
  else
    match hay with
    | [] => false
    | _ :: t => containsSub t needle

/-- The unit alternation `(?:days?|working days?)` of `extractDays`
(input already lower-cased); the regex match ends after the unit, so a
prefix test suffices. -/
def daysUnitAt (cs : List Char) : Bool :=
  ("day".toList).isPrefixOf cs || ("working day".toList).isPrefixOf cs

/-- One attempt of `/(\d+)(?:-(\d+))?\s*(?:days?|working days?)/i` anchored
at the head of `cs` (lower-cased input).  Returns `(parseInt match[1],
parseInt match[2] when group 2 participated)`. -/
def matchDaysAt (cs : List Char) : Option (ℕ × Option ℕ) :=
  let p1 := spanDigits cs
  if p1.1.isEmpty then none
  else
    let range :=
      match p1.2 with
      | '-' :: rest =>
        let p2 := spanDigits rest
        if p2.1.isEmpty then ((none : Option (List Char)), p1.2) else (some p2.1, p2.2)
      | _ => (none, p1.2)
    if daysUnitAt (skipWs range.2) then
      some (digitsVal p1.1, range.1.map digitsVal)
    else if range.1.isSome && daysUnitAt (skipWs p1.2) then
      -- backtrack that skips the optional `(?:-(\d+))?` group; it can never
      -- fire because `p1.2` starts with a dash, kept only for fidelity
      some (digitsVal p1.1, none)
    else none

/-- Leftmost-match scan for the duration regex. -/
def scanDays : List Char → Option (ℕ × Option ℕ)
  | [] => none
  | c :: rest =>
    match matchDaysAt (c :: rest) with
    | some r => some r
    | none => scanDays rest

/-- Result shape `{min, max}` of `extractDays`. -/
structure DaysResult where
  min : Option ℕ
  max : Option ℕ
deriving DecidableEq, Repr

/-- Model of `extractDays` (load script): first match of
`/(\d+)(?:-(\d+))?\s*(?:days?|working days?)/i`, else `{min: null, max:
null}`; `max` is null when group 2 did not participate. -/
def extractDays (s : String) : DaysResult :=
  match scanDays (lcList s.toList) with
  | some r => ⟨some r.1, r.2⟩
  | none => ⟨none, none⟩

/-- The currency alternation `(?:QAR|QR|riyal)` (input lower-cased). -/
def amountUnitAt (cs : List Char) : Bool :=
  ("qar".toList).isPrefixOf cs || ("qr".toList).isPrefixOf cs
    || ("riyal".toList).isPrefixOf cs

/-- Greedy `(?:,\d{3})*`: collects the digits of each full `,ddd` group,
returning them with the rest of the input. -/
def commaGroups : List Char → List Char × List Char
  | ',' :: a :: b :: c :: rest =>
    if a.isDigit && b.isDigit && c.isDigit then
      let p := commaGroups rest
      (a :: b :: c :: p.1, p.2)
    else ([], ',' :: a :: b :: c :: rest)
  | cs => ([], cs)

/-- One attempt of `/(\d+(?:,\d{3})*(?:\.\d{2})?)\s*(?:QAR|QR|riyal)/i`
anchored at the head of `cs` (lower-cased input).  Returns the value of
`match[1]` with the commas stripped, split into its integer digits and its
optional two-digit fraction. -/
def matchAmountAt (cs : List Char) : Option (ℕ × Option ℕ) :=
  let p1 := spanDigits cs
  if p1.1.isEmpty then none
  else
    let cg := commaGroups p1.2
    let fracPart :=
      match cg.2 with
      | '.' :: a :: b :: rest =>
        if a.isDigit && b.isDigit then (some (a, b), rest)
        else ((none : Option (Char × Char)), cg.2)
      | _ => (none, cg.2)
    if amountUnitAt (skipWs fracPart.2) then
      some (digitsVal (p1.1 ++ cg.1),
        fracPart.1.map (fun fd => digitsVal [fd.1, fd.2]))
    else none

/-- Leftmost-match scan for the currency-amount regex. -/
def scanAmount : List Char → Option (ℕ × Option ℕ)
  | [] => none
  | c :: rest =>
    match matchAmountAt (c :: rest) with
    | some q => some q
    | none => scanAmount rest

/-- Value of `parseFloat` on the comma-stripped `match[1]`: integer part plus the
optional two fractional digits. -/
def amountVal (p : ℕ × Option ℕ) : ℚ :=
  (p.1 : ℚ) +
    (match p.2 with
     | some f => (f : ℚ) / 100
     | none => 0)

/-- Model of `extractAmount` (load script): the parsed amount of the first
currency-amount match, else null. -/
def extractAmount (s : String) : Option ℚ :=
  (scanAmount (lcList s.toList)).map amountVal

/-! ## Data loader (load-visa-data script, src/unnamed/part_000)

The Prisma tables touched by the script are embedded as lists of rows;
`create` appends a row whose id is the current table length (modelling the
autoincrement key).  The script's per-entry body is `loadEntry`. -/

/-- One `official_links` entry of a visas.jsonl line. -/
structure VisaLink where
  title : String
  url : String
deriving DecidableEq

/-- The `sections` object of a visas.jsonl line, restricted to the keys the
script reads (`purpose`, `description`, `summary`, `fees`,
`processing_time`, `steps`, `validity`); a missing key is `none` and the
script's JavaScript truthiness tests additionally treat `""` as absent. -/
structure Sections where
  purpose : Option String
  description : Option String
  summary : Option String
  fees : Option String
  processing_time : Option String
  steps : Option String
  validity : Option String
deriving DecidableEq

/-- One parsed visas.jsonl line (`VisaData`). -/
structure VisaData where
  source_url : String
  title : String
  visa_type_guess : String
  sections : Option Sections
  official_links : List VisaLink
  content_summary : Option String
deriving DecidableEq

/-- A `sources` row (fields the script writes). -/
structure SourceRow where
  id : ℕ
  url : String
  domain : String
  content_html : String
  content_hash : String
  status : String
  last_fetched_at : ℕ
deriving DecidableEq

/-- A `pages` row; `content_markup` holds the `sections` object whose JSON
serialization the script stores. -/
structure PageRow where
  id : ℕ
  source_id : ℕ
  title : String
  content_text : String
  content_markup : Option Sections
  summary : String
deriving DecidableEq

/-- A `visa_types` row. -/
structure VisaTypeRow where
  id : ℕ
  page_id : ℕ
  name : String
  category : String
  purpose : String
  summary : String
deriving DecidableEq

/-- A `fees` row. -/
structure FeeRow where
  visa_type_id : ℕ
  description : String
  amount : Option ℚ
  currency : String
deriving DecidableEq

/-- A `processing_times` row. -/
structure ProcessingTimeRow where
  visa_type_id : ℕ
  description : String
  min_days : Option ℕ
  max_days : Option ℕ
deriving DecidableEq

/-- A `steps` row. -/
structure StepRow where
  visa_type_id : ℕ
  step_number : ℕ
  description : String
deriving DecidableEq

/-- An `eligibility_criteria` row. -/
structure EligibilityRow where
  visa_type_id : ℕ
  description : String
deriving DecidableEq

/-- An `external_links` row. -/
structure ExternalLinkRow where
  page_id : ℕ
  title : String
  url : String
  link_type : String
deriving DecidableEq

/-- A `changes` row.  The load script never writes this table; it is kept
in the state so that statements about Change records are about the real
store shape. -/
structure ChangeRow where
  page_id : ℕ
  summary : String
deriving DecidableEq

/-- The persistent store touched by the script. -/
structure Db where
  sources : List SourceRow
  pages : List PageRow
  visa_types : List VisaTypeRow
  fees : List FeeRow
  processing_times : List ProcessingTimeRow
  steps : List StepRow
  eligibility_criteria : List EligibilityRow
  external_links : List ExternalLinkRow
  changes : List ChangeRow
deriving DecidableEq

/-- External capabilities the script calls while loading: `hash50` models
`Buffer.from(url).toString('base64').substring(0, 50)` and `hostname`
models `new URL(url).hostname`, which throws (`none`) on a malformed URL so
that the per-entry catch skips the entry. -/
structure LoadEnv where
  hash50 : String → String
  hostname : String → Option String

/-- The default `visaData.content_summary || ''`. -/
def contentSummary (v : VisaData) : String :=
  v.content_summary.getD ""

/-- Whether `prisma.source.findUnique` by URL succeeded (the `if
(existingSource)` test). -/
def sourceExists (db : Db) (u : String) : Bool :=
  (db.sources.find? (fun s => s.url == u)).isSome

/-- JavaScript truthiness of an optional string section value: present and
non-empty. -/
def truthy (o : Option String) : Option String :=
  match o with
  | some s => if s ≠ "" then some s else none
  | none => none

/-- Model of `extractPurpose` (load script): first truthy of the `purpose`,
`description`, `summary` sections, truncated to 200 characters, else a
fixed default. -/
def extractPurpose (sections : Option Sections) : String :=
  match sections with
  | none => "General visa information"
  | some sec =>
    match truthy sec.purpose with
    | some p => p.take 200
    | none =>
      match truthy sec.description with
      | some d => d.take 200
      | none =>
        match truthy sec.summary with
        | some s => s.take 200
        | none => "General visa information"

/-- Fee rows created by `extractAndCreateDetails` for one visa type: one
row per truthy `sections.fees`, with the parsed amount and hardcoded
currency. -/
def feeRows (vid : ℕ) (sec : Sections) : List FeeRow :=
  match sec.fees with
  | some t => if t ≠ "" then [⟨vid, t, extractAmount t, "QAR"⟩] else []
  | none => []

/-- Processing-time rows created by `extractAndCreateDetails`. -/
def ptRows (vid : ℕ) (sec : Sections) : List ProcessingTimeRow :=
  match sec.processing_time with
  | some t =>
    if t ≠ "" then [⟨vid, t, (extractDays t).min, (extractDays t).max⟩] else []
  | none => []

/-- Step rows created by `extractAndCreateDetails`: split on newlines,
keep non-blank lines, at most ten, numbering from 1, description trimmed
and truncated to 1000 characters. -/
def stepRows (vid : ℕ) (sec : Sections) : List StepRow :=
  match sec.steps with
  | some t =>
    if t ≠ "" then
      (((t.splitOn "\n").filter (fun s => s.trim ≠ "")).take 10).enum.map
        (fun p => ⟨vid, p.1 + 1, (p.2.trim).take 1000⟩)
    else []
  | none => []

/-- Eligibility rows created by `extractAndCreateDetails` from the
`validity` section. -/
def eligRows (vid : ℕ) (sec : Sections) : List EligibilityRow :=
  match sec.validity with
  | some t => if t ≠ "" then [⟨vid, "Validity: " ++ t⟩] else []
  | none => []

/-- Model of `new Map(links.map(l => [l.url, l])).values()`: deduplicate by URL,
keeping the last link for each URL at the position of its first
occurrence. -/
def dedupByUrl (ls : List VisaLink) : List VisaLink :=
  ls.foldl
    (fun acc l =>
      if acc.any (fun a => a.url == l.url) then
        acc.map (fun a => if a.url == l.url then l else a)
      else acc ++ [l])
    []

/-- The new `sources` row created for a fresh URL. -/
def mkSource (env : LoadEnv) (db : Db) (v : VisaData) (now : ℕ) (host : String) :
    SourceRow :=
  ⟨db.sources.length, v.source_url, host, contentSummary v,
    env.hash50 v.source_url, "completed", now⟩

/-- The new `pages` row created alongside the fresh source. -/
def mkPage (db : Db) (v : VisaData) : PageRow :=
  ⟨db.pages.length, db.sources.length, v.title, contentSummary v, v.sections,
    (contentSummary v).take 500⟩

/-- The visa-type block of the script: when `visa_type_guess` is truthy and
not `'general'`, create a `visa_types` row and the detail rows extracted
from `sections` (absent sections contribute nothing). -/
def addVisaType (db : Db) (pid : ℕ) (v : VisaData) : Db :=
  if v.visa_type_guess ≠ "" ∧ v.visa_type_guess ≠ "general" then
    let vid := db.visa_types.length
    { db with
      visa_types := db.visa_types ++
        [⟨vid, pid, v.title, v.visa_type_guess, extractPurpose v.sections,
          (contentSummary v).take 500⟩]
      fees := db.fees ++ (match v.sections with
        | some sec => feeRows vid sec
        | none => [])
      processing_times := db.processing_times ++ (match v.sections with
        | some sec => ptRows vid sec
        | none => [])
      steps := db.steps ++ (match v.sections with
        | some sec => stepRows vid sec
        | none => [])
      eligibility_criteria := db.eligibility_criteria ++ (match v.sections with
        | some sec => eligRows vid sec
        | none => []) }
  else db

/-- The external-link block of the script: create one `external_links` row
per URL-deduplicated official link. -/
def addLinks (db : Db) (pid : ℕ) (v : VisaData) : Db :=
  { db with
    external_links := db.external_links ++
      (dedupByUrl v.official_links).map (fun l => ⟨pid, l.title, l.url, "official"⟩) }

/-- The create branch of the per-entry body: fresh source and page, then
the visa-type block, then the external links. -/
def createForEntry (env : LoadEnv) (db : Db) (v : VisaData) (now : ℕ) (host : String) :
    Db :=
  let db1 :=
    { db with
      sources := db.sources ++ [mkSource env db v now host]
      pages := db.pages ++ [mkPage db v] }
  addLinks (addVisaType db1 (mkPage db v).id v) (mkPage db v).id v

/-- The per-entry body of `loadVisaData` (part_000 lines 270–357): an entry
whose URL already has a `sources` row is skipped entirely; a malformed URL
makes `new URL(...)` throw, which the per-entry catch turns into a skip;
otherwise the create branch runs. -/
def loadEntry (env : LoadEnv) (db : Db) (v : VisaData) (now : ℕ) : Db :=
  if sourceExists db v.source_url then db
  else
    match env.hostname v.source_url with
    | none => db
    | some host => createForEntry env db v now host

/-! ## Polite crawler (packages/etl/src/crawler.ts) -/

/-- The object produced by the WHATWG `URL` constructor, reduced to what
`normalizeUrl` uses: the serialization after `urlObj.hash = ''` and the
fragment that was removed. -/
structure JsUrl where
  hrefNoHash : String
  fragment : String

/-- Crawl configuration (`CrawlConfig`). -/
structure CrawlConfig where
  baseUrl : String
  maxDepth : ℕ
  maxPages : ℕ
  delayMin : ℕ
  delayMax : ℕ
  userAgent : String
  respectRobotsTxt : Bool
  maxRetries : ℕ
  timeout : ℕ

/-- A successfully fetched page, reduced to what the crawl loop consumes:
the content features the classifier reads off the DOM and the `a[href]`
link targets. -/
structure PageData where
  features : ContentFeatures
  links : List String

/-- Outcome of one Playwright navigation attempt: a response with an HTTP
status, or a thrown error with a message. -/
inductive FetchOutcome where
  | success (status : ℕ) (page : PageData)
  | failure (msg : String)

/-- External collaborators of the crawler: the fetcher (indexed by URL and
attempt number), the parsed robots.txt ruleset (`none` when absent), the
`URL` constructor, and the `@qatar-visa/shared` URL classification
helpers. -/
structure CrawlEnv where
  fetch : String → ℕ → FetchOutcome
  robots : Option (String → Bool)
  parseUrl : String → Option JsUrl
  visaRelatedUrl : String → Bool
  excludeMatch : List (String → Bool)

/-- Model of `PoliteCrawler.normalizeUrl` (crawler.ts lines 111–120): parse against
the base, drop the fragment, return the serialization; on a parse failure
the `catch` returns the input unchanged. -/
def normalizeUrl (env : CrawlEnv) (url : String) : String :=
  match env.parseUrl url with
  | some u => u.hrefNoHash
  | none => url

/-- Model of `PoliteCrawler.canCrawl`: allow-all when no robots.txt was loaded. -/
def canCrawl (env : CrawlEnv) (url : String) : Bool :=
  match env.robots with
  | none => true
  | some allow => allow url

/-- Model of `PoliteCrawler.shouldCrawl` (crawler.ts lines 125–151): not visited,
same origin, robots-allowed, and URL-stage relevant. -/
def shouldCrawl (cfg : CrawlConfig) (env : CrawlEnv) (visited : List String)
    (url : String) : Bool :=
  let n := normalizeUrl env url
  !(visited.contains n) && n.startsWith cfg.baseUrl && canCrawl env n &&
    (classifyUrl env.visaRelatedUrl env.excludeMatch n).isRelevant

/-- Model of `PoliteCrawler.isTransientError` (crawler.ts lines 251–256). -/
def isTransientError (emsg : String) : Bool :=
  ["timeout", "network", "ECONNRESET", "ETIMEDOUT"].any
    (fun t => containsSub (lcList emsg.toList) (lcList t.toList))

/-- Model of `PoliteCrawler.crawlPage` (crawler.ts lines 166–246) with explicit
fuel.  Returns the page on a sub-400 response, `none` on a 400+ status or a
dropped error, together with the number of fetch attempts made and the
number of politeness delays taken (one `randomDelay` before each retry).
The fuel only needs to cover `maxRetries - retries` recursive calls; the
zero-fuel fallback is unreachable from `crawlPage`. -/
def crawlPageAux (cfg : CrawlConfig) (fetch : ℕ → FetchOutcome) :
    ℕ → ℕ → Option PageData × ℕ × ℕ
  | 0, retries =>
    match fetch retries with
    | .success status page =>
      if 400 ≤ status then (none, 1, 0) else (some page, 1, 0)
    | .failure _ =>
      -- with no fuel left the retry guard cannot hold (the fuel always
      -- covers maxRetries − retries), and both guard outcomes drop the URL
      (none, 1, 0)
  | Nat.succ f, retries =>
    match fetch retries with
    | .success status page =>
      if 400 ≤ status then (none, 1, 0) else (some page, 1, 0)
    | .failure msg =>
      if retries < cfg.maxRetries ∧ isTransientError msg = true then
        ((crawlPageAux cfg fetch f (retries + 1)).1,
          (crawlPageAux cfg fetch f (retries + 1)).2.1 + 1,
          (crawlPageAux cfg fetch f (retries + 1)).2.2 + 1)
      else (none, 1, 0)

/-- The call `crawlPage(url)` as made by the crawl loop (initial `retries = 0`). -/
def crawlPage (cfg : CrawlConfig) (fetch : ℕ → FetchOutcome) :
    Option PageData × ℕ × ℕ :=
  crawlPageAux cfg fetch cfg.maxRetries 0

/-- Mutable state of `PoliteCrawler`: the visited set, the frontier queue
of (normalized URL, depth) pairs, `crawlCount`, the accepted results, and
the trace of URLs actually fetched (one entry per `crawlPage` call from the
loop, recording what the run fetched). -/
structure CrawlState where
  visited : List String
  queue : List (String × ℕ)
  crawlCount : ℕ
  results : List String
  fetched : List String

/-- One iteration of the `while` body of `PoliteCrawler.crawl` (crawler.ts
lines 277–324): pop, skip if visited, else mark visited, count, fetch,
content-classify, and when accepted and under the depth bound push the
should-crawl links at depth + 1. -/
def crawlStep (cfg : CrawlConfig) (env : CrawlEnv) (st : CrawlState) : CrawlState :=
  match st.queue with
  | [] => st
  | (url, depth) :: rest =>
    if st.visited.contains url then { st with queue := rest }
    else
      let st1 : CrawlState :=
        { st with
          queue := rest
          visited := url :: st.visited
          crawlCount := st.crawlCount + 1
          fetched := st.fetched ++ [url] }
      match (crawlPage cfg (env.fetch url)).1 with
      | none => st1
      | some pd =>
        if (classifyContent env.visaRelatedUrl env.excludeMatch url pd.features).isRelevant
        then
          let st2 := { st1 with results := st1.results ++ [url] }
          if depth < cfg.maxDepth then
            let childLinks :=
              (pd.links.map (normalizeUrl env)).filter (shouldCrawl cfg env st1.visited)
            { st2 with queue := st2.queue ++ childLinks.map (fun l => (l, depth + 1)) }
          else st2
        else st1

/-- The `while (queue.length > 0 && crawlCount < maxPages)` loop, with fuel
bounding the number of iterations (the run always terminates; every
property below holds for every fuel, hence for the actual run). -/
def crawlLoop (cfg : CrawlConfig) (env : CrawlEnv) : ℕ → CrawlState → CrawlState
  | 0, st => st
  | Nat.succ fuel, st =>
    if st.queue ≠ [] ∧ st.crawlCount < cfg.maxPages then
      crawlLoop cfg env fuel (crawlStep cfg env st)
    else st

/-- Model of `PoliteCrawler.seed` (crawler.ts lines 261–269): normalize each seed
URL and enqueue it at depth 0 when `shouldCrawl` accepts it (the visited
set is empty throughout seeding). -/
def seedQueue (cfg : CrawlConfig) (env : CrawlEnv) (urls : List String) :
    List (String × ℕ) :=
  ((urls.map (normalizeUrl env)).filter (shouldCrawl cfg env [])).map (fun u => (u, 0))

/-- A fresh crawler whose queue holds the given entries. -/
def initState (q : List (String × ℕ)) : CrawlState :=
  ⟨[], q, 0, [], []⟩

/-- A fresh crawler right after `seed(urls)`. -/
def seedState (cfg : CrawlConfig) (env : CrawlEnv) (urls : List String) : CrawlState :=
  initState (seedQueue cfg env urls)

/-! ## Concrete fixtures used to instantiate the theorems -/

/-- An empty persistent store. -/
def emptyDb : Db :=
  ⟨[], [], [], [], [], [], [], [], []⟩

/-- A load environment whose URL parser always succeeds. -/
def envW : LoadEnv :=
  ⟨fun _ => "aGFzaA", fun _ => some "example.com"⟩

/-- A sample visas.jsonl entry. -/
def vW : VisaData :=
  ⟨"https://example.com/work-visa", "Work Visa", "work", none, [], some "Work visa info"⟩

/-- A store already holding a source row for `vW`'s URL, fetched at time 0
with a known content hash. -/
def dbPre : Db :=
  ⟨[⟨0, "https://example.com/work-visa", "example.com", "Work visa info",
      "oldhash", "completed", 0⟩], [], [], [], [], [], [], [], []⟩

/-- The fee-section text of the specified extraction example. -/
def feeText : String := "The visa fee is 500 QAR, non-refundable."

/-- Default-like crawl configuration used to instantiate crawler theorems. -/
def cfgW : CrawlConfig :=
  ⟨"https://www.visaguideqatar.com", 3, 200, 500, 1500,
    "QatarVisaGuideBot/1.0", true, 3, 30000⟩

end QatarVisaGuide

namespace QatarVisaGuide

/-- C3: a URL matching any exclusion pattern is rejected by the URL stage,
however the allow-side keyword check turns out. -/
theorem claim3_exclusion_veto (visaRel : String → Bool) (pats : List (String → Bool))
    (url : String) (h : pats.any (fun p => p url) = true) :
    (classifyUrl visaRel pats url).isRelevant = false := by
  have hs : urlScore visaRel pats url ≤ -50 := by
    unfold urlScore
    by_cases hv : visaRel url = true <;> simp [hv, h]
  simp only [classifyUrl, decide_eq_false_iff_not, not_lt]
  omega

/-- Witness for C3 at a concrete URL, allow-keyword oracle constantly true
(maximal allow score) and one matching exclusion pattern. -/
theorem claim3_exclusion_veto_witness :
    (classifyUrl (fun _ => true) [fun _ => true] "https://x/blog/visa").isRelevant = false :=
  claim3_exclusion_veto (fun _ => true) [fun _ => true] "https://x/blog/visa" rfl

/-- C8: the content-stage score is clamped to [0,100], the page is accepted
iff the clamped score is at least 40, and the reported confidence
(clamped score / 100) lies in [0,1]. -/
theorem claim8_content_score_clamped (visaRel : String → Bool) (pats : List (String → Bool))
    (url : String) (f : ContentFeatures) :
    0 ≤ normalizedContentScore visaRel pats url f
    ∧ normalizedContentScore visaRel pats url f ≤ 100
    ∧ ((classifyContent visaRel pats url f).isRelevant = true
        ↔ 40 ≤ normalizedContentScore visaRel pats url f)
    ∧ 0 ≤ (classifyContent visaRel pats url f).confidence
    ∧ (classifyContent visaRel pats url f).confidence ≤ 1 := by
  have h0 : 0 ≤ normalizedContentScore visaRel pats url f := by
    unfold normalizedContentScore
    exact le_min (le_max_right _ _) (by norm_num)
  have h100 : normalizedContentScore visaRel pats url f ≤ 100 := by
    unfold normalizedContentScore
    exact min_le_right _ _
  refine ⟨h0, h100, ?_, ?_, ?_⟩
  · simp [classifyContent]
  · simpa [classifyContent] using div_nonneg h0 (by norm_num : (0:ℚ) ≤ 100)
  · have := div_le_one_of_le₀ h100 (by norm_num : (0:ℚ) ≤ 100)
    simpa [classifyContent] using this

/-! ### Loader helper lemmas -/

theorem find?_isSome_eq_any {α : Type} (p : α → Bool) (l : List α) :
    (l.find? p).isSome = l.any p := by
  induction l with
  | nil => rfl
  | cons a t ih =>
    by_cases h : p a
    · simp [List.find?, h]
    · simp [List.find?, h, ih]

theorem addVisaType_sources (db : Db) (pid : ℕ) (v : VisaData) :
    (addVisaType db pid v).sources = db.sources := by
  unfold addVisaType
  split <;> rfl

theorem addVisaType_pages (db : Db) (pid : ℕ) (v : VisaData) :
    (addVisaType db pid v).pages = db.pages := by
  unfold addVisaType
  split <;> rfl

theorem addVisaType_changes (db : Db) (pid : ℕ) (v : VisaData) :
    (addVisaType db pid v).changes = db.changes := by
  unfold addVisaType
  split <;> rfl

theorem addLinks_sources (db : Db) (pid : ℕ) (v : VisaData) :
    (addLinks db pid v).sources = db.sources := rfl

theorem addLinks_pages (db : Db) (pid : ℕ) (v : VisaData) :
    (addLinks db pid v).pages = db.pages := rfl

theorem addLinks_changes (db : Db) (pid : ℕ) (v : VisaData) :
    (addLinks db pid v).changes = db.changes := rfl

theorem createForEntry_sources (env : LoadEnv) (db : Db) (v : VisaData) (now : ℕ)
    (host : String) :
    (createForEntry env db v now host).sources =
      db.sources ++ [mkSource env db v now host] := by
  unfold createForEntry
  rw [addLinks_sources, addVisaType_sources]

theorem createForEntry_pages (env : LoadEnv) (db : Db) (v : VisaData) (now : ℕ)
    (host : String) :
    (createForEntry env db v now host).pages = db.pages ++ [mkPage db v] := by
  unfold createForEntry
  rw [addLinks_pages, addVisaType_pages]

theorem createForEntry_changes (env : LoadEnv) (db : Db) (v : VisaData) (now : ℕ)
    (host : String) :
    (createForEntry env db v now host).changes = db.changes := by
  unfold createForEntry
  rw [addLinks_changes, addVisaType_changes]

theorem loadEntry_skip (env : LoadEnv) (db : Db) (v : VisaData) (now : ℕ)
    (h : sourceExists db v.source_url = true) :
    loadEntry env db v now = db := by
  simp [loadEntry, h]

theorem loadEntry_create (env : LoadEnv) (db : Db) (v : VisaData) (now : ℕ) (host : String)
    (h1 : sourceExists db v.source_url = false)
    (h3 : env.hostname v.source_url = some host) :
    loadEntry env db v now = createForEntry env db v now host := by
  simp [loadEntry, h1, h3]

theorem sourceExists_after_create (env : LoadEnv) (db : Db) (v : VisaData) (now : ℕ)
    (host : String) :
    sourceExists (createForEntry env db v now host) v.source_url = true := by
  unfold sourceExists
  rw [createForEntry_sources, find?_isSome_eq_any, List.any_append]
  simp [mkSource]

/-! ### Claim theorems for the loader -/

/-- C1: loading the same entry for the same URL twice is idempotent — the
second load is a no-op, after it there is exactly one `sources` row and one
`pages` row for that URL, and the `changes` table never grows. -/
theorem claim1_load_idempotent (env : LoadEnv) (db : Db) (v : VisaData) (now now2 : ℕ)
    (host : String)
    (h1 : sourceExists db v.source_url = false)
    (h2 : db.pages.countP (fun p => p.source_id == db.sources.length) = 0)
    (h3 : env.hostname v.source_url = some host) :
    loadEntry env (loadEntry env db v now) v now2 = loadEntry env db v now
    ∧ (loadEntry env db v now).sources.countP (fun s => s.url == v.source_url) = 1
    ∧ (loadEntry env db v now).pages.countP
        (fun p => p.source_id == db.sources.length) = 1
    ∧ (loadEntry env (loadEntry env db v now) v now2).changes = db.changes := by
  have hc := loadEntry_create env db v now host h1 h3
  have hskip : loadEntry env (loadEntry env db v now) v now2 = loadEntry env db v now := by
    apply loadEntry_skip
    rw [hc]
    exact sourceExists_after_create env db v now host
  have hcount0 : db.sources.countP (fun s => s.url == v.source_url) = 0 := by
    rw [sourceExists, find?_isSome_eq_any] at h1
    rw [List.countP_eq_zero]
    intro a ha
    have := List.any_eq_false.mp h1 a ha
    simp [this]
  refine ⟨hskip, ?_, ?_, ?_⟩
  · rw [hc, createForEntry_sources, List.countP_append, hcount0]
    simp [mkSource]
  · rw [hc, createForEntry_pages, List.countP_append, h2]
    simp [mkPage]
  · rw [hskip, hc, createForEntry_changes]

/-- Witness for C1: a fresh store, loading the same entry twice. -/
theorem claim1_load_idempotent_witness :
    loadEntry envW (loadEntry envW emptyDb vW 0) vW 1 = loadEntry envW emptyDb vW 0
    ∧ (loadEntry envW emptyDb vW 0).sources.countP (fun s => s.url == vW.source_url) = 1
    ∧ (loadEntry envW emptyDb vW 0).pages.countP
        (fun p => p.source_id == emptyDb.sources.length) = 1
    ∧ (loadEntry envW (loadEntry envW emptyDb vW 0) vW 1).changes = emptyDb.changes :=
  claim1_load_idempotent envW emptyDb vW 0 1 "example.com" rfl rfl rfl

/-- C2 counterexample: for a URL whose source already exists, the load at
time 5 does not touch the source's fetch metadata — its `last_fetched_at`
stays 0 instead of being updated, contradicting the claimed metadata
refresh. -/
theorem claim2_counterexample :
    loadEntry envW dbPre vW 5 = dbPre
    ∧ (loadEntry envW dbPre vW 5).sources.map (fun s => s.last_fetched_at) = [0]
    ∧ (loadEntry envW dbPre vW 5).sources.map (fun s => s.last_fetched_at) ≠ [5] := by
  have hs : sourceExists dbPre vW.source_url = true := by decide
  have he : loadEntry envW dbPre vW 5 = dbPre := loadEntry_skip envW dbPre vW 5 hs
  refine ⟨he, ?_, ?_⟩ <;> rw [he] <;> decide

/-- C2 amended: when the URL's source already exists the load skips the
entry entirely — nothing is updated, not even the fetch metadata, and the
source is never duplicated. -/
theorem claim2_amended_skip_existing (env : LoadEnv) (db : Db) (v : VisaData) (now : ℕ)
    (h : sourceExists db v.source_url = true) :
    loadEntry env db v now = db :=
  loadEntry_skip env db v now h

/-- Witness for the amended C2. -/
theorem claim2_amended_skip_existing_witness :
    loadEntry envW dbPre vW 5 = dbPre :=
  claim2_amended_skip_existing envW dbPre vW 5 (by decide)

/-! ### Claim theorems for the extractors -/

/-- C4 counterexample: `extractDays` recognizes neither "business days"
nor "weeks", and a single-value match leaves `max` null, so all three
normalizations stated in the claim fail on the code. -/
theorem claim4_counterexample :
    extractDays "5-10 business days" ≠ ⟨some 5, some 10⟩
    ∧ extractDays "2 weeks" ≠ ⟨some 14, some 14⟩
    ∧ (extractDays "3 days").max ≠ (extractDays "3 days").min := by
  decide

/-- C4 amended: the duration regex only accepts the units `days` and
`working days`; a range of days sets min and max, inputs with other units
yield null min and max, and a single value sets only min, leaving max
null. -/
theorem claim4_amended_day_units_only :
    extractDays "5-10 days" = ⟨some 5, some 10⟩
    ∧ extractDays "5-10 business days" = ⟨none, none⟩
    ∧ extractDays "2 weeks" = ⟨none, none⟩
    ∧ extractDays "3 days" = ⟨some 3, none⟩ := by
  decide

theorem extractAmount_feeText : extractAmount feeText = some 500 := by
  have h : scanAmount (lcList feeText.toList) = some (500, none) := by decide
  rw [extractAmount, h]
  show some (amountVal (500, none)) = some 500
  norm_num [amountVal]

theorem amountVal_nonneg (p : ℕ × Option ℕ) : 0 ≤ amountVal p := by
  rcases p with ⟨a, f⟩
  rcases f with _ | f
  · show (0:ℚ) ≤ (a:ℚ) + 0
    positivity
  · show (0:ℚ) ≤ (a:ℚ) + (f:ℚ) / 100
    positivity

/-- C9: the specified fee text yields exactly one fee row with amount 500
and currency "QAR", and every amount the extractor ever produces is
non-negative. -/
theorem claim9_fee_extraction :
    (∀ vid : ℕ, feeRows vid ⟨none, none, none, some feeText, none, none, none⟩ =
      [⟨vid, feeText, some 500, "QAR"⟩])
    ∧ ∀ s q, extractAmount s = some q → 0 ≤ q := by
  constructor
  · intro vid
    have hne : feeText ≠ "" := by decide
    simp [feeRows, hne, extractAmount_feeText]
  · intro s q h
    rw [extractAmount] at h
    obtain ⟨p, _, hpv⟩ := Option.map_eq_some'.mp h
    rw [← hpv]
    exact amountVal_nonneg p

/-- Witness for C9's universally quantified part at the specified text. -/
theorem claim9_fee_extraction_witness : (0:ℚ) ≤ 500 :=
  claim9_fee_extraction.2 feeText 500 extractAmount_feeText

/-! ### Crawler helper lemmas -/

/-- Case analysis of one loop iteration: an empty queue is a no-op, a
visited head is only dequeued, and a fresh head is dequeued, marked
visited, counted and fetched, with any newly enqueued entries sitting at
depth one below the head and only when the head was strictly under the
depth bound. -/
theorem crawlStep_shape (cfg : CrawlConfig) (env : CrawlEnv) (st : CrawlState) :
    (st.queue = [] ∧ crawlStep cfg env st = st)
    ∨ ∃ url depth rest, st.queue = (url, depth) :: rest ∧
        ((st.visited.contains url = true ∧ crawlStep cfg env st = { st with queue := rest })
          ∨ (st.visited.contains url = false
              ∧ (crawlStep cfg env st).visited = url :: st.visited
              ∧ (crawlStep cfg env st).crawlCount = st.crawlCount + 1
              ∧ (crawlStep cfg env st).fetched = st.fetched ++ [url]
              ∧ ∃ extra, (crawlStep cfg env st).queue = rest ++ extra
                  ∧ ∀ e ∈ extra, e.2 = depth + 1 ∧ depth < cfg.maxDepth)) := by
  rcases hq : st.queue with _ | ⟨⟨url, depth⟩, rest⟩
  · exact Or.inl ⟨rfl, by simp [crawlStep, hq]⟩
  · right
    refine ⟨url, depth, rest, rfl, ?_⟩
    by_cases hv : st.visited.contains url = true
    · have hvm : url ∈ st.visited := by simpa using hv
      exact Or.inl ⟨hv, by simp [crawlStep, hq, hvm]⟩
    · right
      have hv' : st.visited.contains url = false := by
        simpa using hv
      have hnv : url ∉ st.visited := by simpa using hv
      refine ⟨hv', ?_⟩
      rcases hcp : (crawlPage cfg (env.fetch url)).1 with _ | pd
      · have hstep : crawlStep cfg env st =
            { st with
              queue := rest
              visited := url :: st.visited
              crawlCount := st.crawlCount + 1
              fetched := st.fetched ++ [url] } := by
          simp [crawlStep, hq, hnv, hcp]
        rw [hstep]
        exact ⟨rfl, rfl, rfl, [], by simp, by simp⟩
      · by_cases hrel :
          (classifyContent env.visaRelatedUrl env.excludeMatch url pd.features).isRelevant
            = true
        · by_cases hd : depth < cfg.maxDepth
          · have hstep : crawlStep cfg env st =
                { st with
                  queue := rest ++
                    ((pd.links.map (normalizeUrl env)).filter
                      (shouldCrawl cfg env (url :: st.visited))).map
                        (fun l => (l, depth + 1))
                  visited := url :: st.visited
                  crawlCount := st.crawlCount + 1
                  results := st.results ++ [url]
                  fetched := st.fetched ++ [url] } := by
              simp [crawlStep, hq, hnv, hcp, hrel, hd]
            rw [hstep]
            refine ⟨rfl, rfl, rfl, _, rfl, ?_⟩
            intro e he
            rcases List.mem_map.mp he with ⟨l, _, rfl⟩
            exact ⟨rfl, hd⟩
          · have hstep : crawlStep cfg env st =
                { st with
                  queue := rest
                  visited := url :: st.visited
                  crawlCount := st.crawlCount + 1
                  results := st.results ++ [url]
                  fetched := st.fetched ++ [url] } := by
              simp [crawlStep, hq, hnv, hcp, hrel, hd]
            rw [hstep]
            exact ⟨rfl, rfl, rfl, [], by simp, by simp⟩
        · have hstep : crawlStep cfg env st =
              { st with
                queue := rest
                visited := url :: st.visited
                crawlCount := st.crawlCount + 1
                fetched := st.fetched ++ [url] } := by
            simp [crawlStep, hq, hnv, hcp, hrel]
          rw [hstep]
          exact ⟨rfl, rfl, rfl, [], by simp, by simp⟩

/-- Any property preserved by `crawlStep` under the loop guard is an
invariant of `crawlLoop`. -/
theorem crawlLoop_invariant (cfg : CrawlConfig) (env : CrawlEnv) (P : CrawlState → Prop)
    (hstep : ∀ st, P st → st.queue ≠ [] → st.crawlCount < cfg.maxPages →
      P (crawlStep cfg env st)) :
    ∀ fuel st, P st → P (crawlLoop cfg env fuel st) := by
  intro fuel
  induction fuel with
  | zero => intro st h; exact h
  | succ f ih =>
    intro st h
    have hdef : crawlLoop cfg env (f + 1) st =
        if st.queue ≠ [] ∧ st.crawlCount < cfg.maxPages then
          crawlLoop cfg env f (crawlStep cfg env st)
        else st := rfl
    rw [hdef]
    split_ifs with hc
    · exact ih _ (hstep st h hc.1 hc.2)
    · exact h

/-! ### Claim theorems for the crawler -/

/-- C5: any run from a seeded frontier visits at most `maxPages` URLs
(both the crawl counter and the fetch trace are bounded), and every queue
entry ever present after seeding is at depth at most `maxDepth`. -/
theorem claim5_crawl_bounds (cfg : CrawlConfig) (env : CrawlEnv) (urls : List String)
    (fuel : ℕ) :
    (crawlLoop cfg env fuel (seedState cfg env urls)).crawlCount ≤ cfg.maxPages
    ∧ (crawlLoop cfg env fuel (seedState cfg env urls)).fetched.length ≤ cfg.maxPages
    ∧ ∀ e ∈ (crawlLoop cfg env fuel (seedState cfg env urls)).queue,
        e.2 ≤ cfg.maxDepth := by
  have hinv := crawlLoop_invariant cfg env
    (fun st => st.crawlCount ≤ cfg.maxPages ∧ st.fetched.length = st.crawlCount
      ∧ ∀ e ∈ st.queue, e.2 ≤ cfg.maxDepth)
    (by
      intro st hP hq hcnt
      rcases crawlStep_shape cfg env st with ⟨_, heq⟩ | ⟨url, depth, rest, hqe, hcase⟩
      · rw [heq]; exact hP
      · rcases hcase with ⟨_, heq⟩ | ⟨_, _, hcount, hfetch, extra, hqueue, hextra⟩
        · rw [heq]
          refine ⟨hP.1, hP.2.1, ?_⟩
          intro e he
          exact hP.2.2 e (hqe ▸ List.mem_cons_of_mem _ he)
        · refine ⟨by omega, ?_, ?_⟩
          · rw [hfetch, hcount, List.length_append, hP.2.1]
            simp
          · intro e he
            rw [hqueue] at he
            rcases List.mem_append.mp he with h1 | h2
            · exact hP.2.2 e (hqe ▸ List.mem_cons_of_mem _ h1)
            · rcases hextra e h2 with ⟨he2, hd⟩
              omega)
    fuel (seedState cfg env urls)
    (by
      refine ⟨Nat.zero_le _, rfl, ?_⟩
      intro e he
      rcases List.mem_map.mp he with ⟨u, _, rfl⟩
      exact Nat.zero_le _)
  exact ⟨hinv.1, hinv.2.1 ▸ hinv.1, hinv.2.2⟩

/-- C6: however the frontier was filled — any queue contents, including
repeated normalized URLs — a run fetches each normalized URL at most once
(the fetch trace has no duplicates). -/
theorem claim6_fetch_dedup (cfg : CrawlConfig) (env : CrawlEnv)
    (q : List (String × ℕ)) (fuel : ℕ) :
    (crawlLoop cfg env fuel (initState q)).fetched.Nodup := by
  have hinv := crawlLoop_invariant cfg env
    (fun st => st.fetched.Nodup ∧ ∀ u ∈ st.fetched, u ∈ st.visited)
    (by
      intro st hP hq hcnt
      rcases crawlStep_shape cfg env st with ⟨_, heq⟩ | ⟨url, depth, rest, hqe, hcase⟩
      · rw [heq]; exact hP
      · rcases hcase with ⟨_, heq⟩ | ⟨hv, hvis, _, hfetch, _, _, _⟩
        · rw [heq]; exact hP
        · have hnv : url ∉ st.visited := by
            intro hmem
            have : st.visited.contains url = true := by
              simpa using hmem
            rw [this] at hv
            cases hv
          have hnf : url ∉ st.fetched := fun hm => hnv (hP.2 url hm)
          constructor
          · rw [hfetch]
            simp [List.nodup_append, hP.1, hnf]
          · intro u hu
            rw [hfetch] at hu
            rw [hvis]
            rcases List.mem_append.mp hu with h1 | h2
            · exact List.mem_cons_of_mem _ (hP.2 u h1)
            · simp at h2
              rw [h2]
              exact List.mem_cons_self _ _)
    fuel (initState q) ⟨List.nodup_nil, by intro u hu; cases hu⟩
  exact hinv.1

/-- C10: `normalizeUrl` is total by construction — for every input string
it either returns the fragment-stripped serialization when the `URL`
constructor succeeds, or returns the input unchanged when the constructor
throws. -/
theorem claim10_normalize_total (env : CrawlEnv) (url : String) :
    (env.parseUrl url = none ∧ normalizeUrl env url = url)
    ∨ ∃ u, env.parseUrl url = some u ∧ normalizeUrl env url = u.hrefNoHash := by
  rcases hp : env.parseUrl url with _ | u
  · exact Or.inl ⟨rfl, by simp [normalizeUrl, hp]⟩
  · exact Or.inr ⟨u, rfl, by simp [normalizeUrl, hp]⟩

/-! ### Retry policy lemmas and claim -/

theorem crawlPageAux_success (cfg : CrawlConfig) (fetch : ℕ → FetchOutcome)
    (fuel retries s : ℕ) (pd : PageData)
    (hf : fetch retries = FetchOutcome.success s pd) :
    crawlPageAux cfg fetch fuel retries =
      if 400 ≤ s then (none, 1, 0) else (some pd, 1, 0) := by
  cases fuel <;> rw [crawlPageAux, hf]

theorem crawlPageAux_failure_zero (cfg : CrawlConfig) (fetch : ℕ → FetchOutcome)
    (retries : ℕ) (m : String) (hf : fetch retries = FetchOutcome.failure m) :
    crawlPageAux cfg fetch 0 retries = (none, 1, 0) := by
  rw [crawlPageAux, hf]

theorem crawlPageAux_failure_succ (cfg : CrawlConfig) (fetch : ℕ → FetchOutcome)
    (f retries : ℕ) (m : String) (hf : fetch retries = FetchOutcome.failure m) :
    crawlPageAux cfg fetch (f + 1) retries =
      if retries < cfg.maxRetries ∧ isTransientError m = true then
        ((crawlPageAux cfg fetch f (retries + 1)).1,
          (crawlPageAux cfg fetch f (retries + 1)).2.1 + 1,
          (crawlPageAux cfg fetch f (retries + 1)).2.2 + 1)
      else (none, 1, 0) := by
  rw [crawlPageAux, hf]

theorem crawlPageAux_attempts_pos (cfg : CrawlConfig) (fetch : ℕ → FetchOutcome)
    (fuel retries : ℕ) : 1 ≤ (crawlPageAux cfg fetch fuel retries).2.1 := by
  rcases hf : fetch retries with ⟨s, pd⟩ | m
  · rw [crawlPageAux_success cfg fetch fuel retries s pd hf]
    split_ifs <;> simp
  · cases fuel with
    | zero =>
      rw [crawlPageAux_failure_zero cfg fetch retries m hf]
    | succ f =>
      rw [crawlPageAux_failure_succ cfg fetch f retries m hf]
      split_ifs with hg
      · show 1 ≤ (crawlPageAux cfg fetch f (retries + 1)).2.1 + 1
        omega
      · simp

theorem crawlPageAux_attempts_le (cfg : CrawlConfig) (fetch : ℕ → FetchOutcome) :
    ∀ fuel retries, (crawlPageAux cfg fetch fuel retries).2.1 ≤ fuel + 1 := by
  intro fuel
  induction fuel with
  | zero =>
    intro r
    rcases hf : fetch r with ⟨s, pd⟩ | m
    · rw [crawlPageAux_success cfg fetch 0 r s pd hf]
      split_ifs <;> simp
    · rw [crawlPageAux_failure_zero cfg fetch r m hf]
  | succ f ih =>
    intro r
    rcases hf : fetch r with ⟨s, pd⟩ | m
    · rw [crawlPageAux_success cfg fetch (f + 1) r s pd hf]
      split_ifs <;> simp
    · rw [crawlPageAux_failure_succ cfg fetch f r m hf]
      split_ifs with hg
      · have := ih (r + 1)
        show (crawlPageAux cfg fetch f (r + 1)).2.1 + 1 ≤ f + 1 + 1
        omega
      · simp

theorem crawlPageAux_delay_count (cfg : CrawlConfig) (fetch : ℕ → FetchOutcome) :
    ∀ fuel retries,
      (crawlPageAux cfg fetch fuel retries).2.2 + 1 =
        (crawlPageAux cfg fetch fuel retries).2.1 := by
  intro fuel
  induction fuel with
  | zero =>
    intro r
    rcases hf : fetch r with ⟨s, pd⟩ | m
    · rw [crawlPageAux_success cfg fetch 0 r s pd hf]
      split_ifs <;> simp
    · rw [crawlPageAux_failure_zero cfg fetch r m hf]
  | succ f ih =>
    intro r
    rcases hf : fetch r with ⟨s, pd⟩ | m
    · rw [crawlPageAux_success cfg fetch (f + 1) r s pd hf]
      split_ifs <;> simp
    · rw [crawlPageAux_failure_succ cfg fetch f r m hf]
      split_ifs with hg
      · have := ih (r + 1)
        show (crawlPageAux cfg fetch f (r + 1)).2.2 + 1 + 1 =
          (crawlPageAux cfg fetch f (r + 1)).2.1 + 1
        omega
      · simp

theorem crawlPageAux_all_transient (cfg : CrawlConfig) (fetch : ℕ → FetchOutcome)
    (m : String) (hf : ∀ i, fetch i = FetchOutcome.failure m)
    (ht : isTransientError m = true) :
    ∀ fuel retries, retries + fuel = cfg.maxRetries →
      crawlPageAux cfg fetch fuel retries = (none, fuel + 1, fuel) := by
  intro fuel
  induction fuel with
  | zero =>
    intro r hr
    rw [crawlPageAux_failure_zero cfg fetch r m (hf r)]
  | succ f ih =>
    intro r hr
    rw [crawlPageAux_failure_succ cfg fetch f r m (hf r)]
    rw [if_pos ⟨by omega, ht⟩]
    show ((crawlPageAux cfg fetch f (r + 1)).1, (crawlPageAux cfg fetch f (r + 1)).2.1 + 1,
      (crawlPageAux cfg fetch f (r + 1)).2.2 + 1) = (none, f + 1 + 1, f + 1)
    rw [ih (r + 1) (by omega)]

/-- C7: at most `maxRetries + 1` fetch attempts are ever made, a
politeness delay is taken before each retry (delays = attempts − 1), a
response with status 400 or above is dropped immediately with a single
attempt and no retry, and persistent transient failures are retried
exactly `maxRetries` times, each behind a delay, before the URL is
dropped. -/
theorem claim7_retry_policy (cfg : CrawlConfig) (fetch : ℕ → FetchOutcome) :
    (crawlPage cfg fetch).2.1 ≤ cfg.maxRetries + 1
    ∧ (crawlPage cfg fetch).2.2 + 1 = (crawlPage cfg fetch).2.1
    ∧ (∀ s pd, fetch 0 = FetchOutcome.success s pd → 400 ≤ s →
        crawlPage cfg fetch = (none, 1, 0))
    ∧ (∀ m, fetch 0 = FetchOutcome.failure m → isTransientError m = true →
        0 < cfg.maxRetries → 2 ≤ (crawlPage cfg fetch).2.1)
    ∧ (∀ m, (∀ i, fetch i = FetchOutcome.failure m) → isTransientError m = true →
        crawlPage cfg fetch = (none, cfg.maxRetries + 1, cfg.maxRetries)) := by
  refine ⟨?_, ?_, ?_, ?_, ?_⟩
  · exact crawlPageAux_attempts_le cfg fetch cfg.maxRetries 0
  · exact crawlPageAux_delay_count cfg fetch cfg.maxRetries 0
  · intro s pd hf hs
    rw [crawlPage, crawlPageAux_success cfg fetch cfg.maxRetries 0 s pd hf, if_pos hs]
  · intro m hf ht hpos
    obtain ⟨f, hfe⟩ : ∃ f, cfg.maxRetries = f + 1 := ⟨cfg.maxRetries - 1, by omega⟩
    rw [crawlPage, hfe, crawlPageAux_failure_succ cfg fetch f 0 m hf]
    rw [if_pos ⟨by omega, ht⟩]
    show 2 ≤ (crawlPageAux cfg fetch f 1).2.1 + 1
    have := crawlPageAux_attempts_pos cfg fetch f 1
    omega
  · intro m hf ht
    rw [crawlPage]
    exact crawlPageAux_all_transient cfg fetch m hf ht cfg.maxRetries 0 (by omega)

/-- Witness for C7: an always-timing-out fetch under the default retry
ceiling of 3 is attempted 4 times with 3 delays and then dropped. -/
theorem claim7_retry_policy_witness :
    crawlPage cfgW (fun _ => FetchOutcome.failure "timeout") =
      (none, cfgW.maxRetries + 1, cfgW.maxRetries) :=
  (claim7_retry_policy cfgW (fun _ => FetchOutcome.failure "timeout")).2.2.2.2 "timeout"
    (fun _ => rfl) (by decide)

end QatarVisaGuide
